import Mathlib

/-!
Verification of the vue-doctor diagnostic engine.

This file gives a shallow embedding of the score computation
(`calculateScore` in `utils/calculate-score`), the ignore filtering
(`utils/filter-diagnostics.ts`), the AST walker and rule helpers
(`plugin/helpers.ts`), and the rules `no-giant-component`,
`require-emits-declaration` (`plugin/rules/architecture.ts`) and
`no-watch-as-computed` (`plugin/rules/composition-api`), and proves the
specified properties about them.

Modelling conventions:
* JavaScript numbers: the only fractional quantity is the score
  penalty `errorCount * 4 + warningCount * 1.5`, always a multiple of
  0.5 and hence exact in IEEE doubles for all realistic counts.  We
  track `penalty2 = 2 * penalty` as an `Int`, so `Math.round(x)`
  (round half towards +infinity) of the half-integer `n / 2` is the
  integer `(n + 1) / 2` (flooring division, `n ≥ 0`).
* Strings are Lean `String`s; `===` on strings is `==`.
* ESTree nodes are modelled by the inductive `JsValue` below.
-/

/-- Structure `Diagnostic` from `types.ts` (the fields relevant to scoring and
filtering; `severity` is the string `"error"` or `"warning"`). -/
structure Diagnostic where
  filePath : String
  plugin : String
  rule : String
  severity : String
  message : String
  help : String
  line : Nat
  column : Nat
  category : String
  deriving DecidableEq, Repr

/-- Structure `ScoreResult` from `types.ts`. -/
structure ScoreResult where
  score : Nat
  label : String
  deriving DecidableEq, Repr

/-- Constant `PERFECT_SCORE` from `constants.ts`. -/
def PERFECT_SCORE : Nat := 100

/-- Constant `SCORE_GOOD_THRESHOLD` from `constants.ts`. -/
def SCORE_GOOD_THRESHOLD : Nat := 75

/-- Constant `SCORE_OK_THRESHOLD` from `constants.ts`. -/
def SCORE_OK_THRESHOLD : Nat := 50

/-- Function `calculateScore` from `utils/calculate-score`.  `penalty2` is twice
the JS `penalty = Math.min(errorCount * 4 + warningCount * 1.5, 100)`;
the JS `score = Math.max(0, Math.round(PERFECT_SCORE - penalty))`
becomes `max 0 ((200 - penalty2 + 1) / 2)` (the numerator is always
nonnegative, and `Int` division by 2 is then flooring). -/
def calculateScore (diagnostics : List Diagnostic) : ScoreResult :=
  if diagnostics.length = 0 then
    { score := PERFECT_SCORE, label := "Perfect" }
  else
    let errorCount := (diagnostics.filter (fun d => d.severity == "error")).length
    let warningCount := (diagnostics.filter (fun d => d.severity == "warning")).length
    let penalty2 : Int := min ((errorCount : Int) * 8 + (warningCount : Int) * 3) 200
    let score : Nat := (max 0 ((200 - penalty2 + 1) / 2)).toNat
    let label : String :=
      if score ≥ SCORE_GOOD_THRESHOLD then "Good"
      else if score ≥ SCORE_OK_THRESHOLD then "OK"
      else "Critical"
    { score := score, label := label }

/-- The score formula exactly as the specification words it:
`penalty = min(4 * errorCount + 1.5 * warningCount, 100)`,
`score = round(max(0, 100 - penalty))`, label thresholds 75 / 50, empty
set gives 100 / "Perfect".  Stated in the same doubled-integer
arithmetic (`penalty2 = 2 * penalty`). -/
def calculateScoreSpec (diagnostics : List Diagnostic) : ScoreResult :=
  if diagnostics.length = 0 then
    { score := 100, label := "Perfect" }
  else
    let errorCount := (diagnostics.filter (fun d => d.severity == "error")).length
    let warningCount := (diagnostics.filter (fun d => d.severity == "warning")).length
    let penalty2 : Int := min (8 * (errorCount : Int) + 3 * (warningCount : Int)) 200
    let score : Nat := ((max 0 (200 - penalty2) + 1) / 2).toNat
    let label : String :=
      if 75 ≤ score then "Good"
      else if 50 ≤ score then "OK"
      else "Critical"
    { score := score, label := label }

/-- A sample error diagnostic. -/
def errDiag : Diagnostic :=
  { filePath := "/src/components/Bad.vue", plugin := "vue-doctor",
    rule := "no-v-html", severity := "error", message := "m", help := "h",
    line := 1, column := 1, category := "Security" }

/-- A sample warning diagnostic. -/
def warnDiag : Diagnostic := { errDiag with severity := "warning" }

/-! ## The glob matcher of `utils/filter-diagnostics.ts`

`matchesGlobPattern` builds a JS regex from the pattern by
1. escaping the regex metacharacters `. + ^ $ { } ( ) | [ ] \`
   (note: `*` and `?` are NOT in the escaped set),
2. replacing `**` by a placeholder, `*` by `[^/]*`, and the
   placeholder by `.*`,
and then testing `^pattern$` against the file path.

We compile the pattern to a list of regex atoms: every character other
than `*` and `?` becomes a literal (escaping makes even regex
metacharacters literal), `**` becomes `.*`, a single `*` becomes
`[^/]*`, and `?` — which the code never translates or escapes — stays a
regex quantifier making the preceding atom optional (`x?`; the lazy
forms `*?` produced when `?` follows a star accept the same strings as
the greedy ones, and a leading `?` makes the regex invalid, modelled as
`none`).  Patterns containing the literal placeholder text are the one
shape the atom list does not capture; no claim involves them.  Matching
is decided by a standard NFA-style matcher over the atom list, anchored
at both ends exactly like `^...$` with `RegExp.test`. -/

/-- One compiled regex atom of the glob translation. -/
inductive GAtom where
  | lit (c : Char)
  | starSeg
  | starAll
  | opt (a : GAtom)
  deriving Repr, DecidableEq

/-- Translate the glob pattern characters into regex atoms,
accumulator-style so that `?` can attach to the previously produced
atom.  `none` models a pattern whose translation is not a valid regex
(`?` with nothing to repeat). -/
def compileGlobAux : List GAtom → List Char → Option (List GAtom)
  | acc, [] => some acc.reverse
  | acc, '*' :: '*' :: rest => compileGlobAux (.starAll :: acc) rest
  | acc, '*' :: rest => compileGlobAux (.starSeg :: acc) rest
  | [], '?' :: _ => none
  | a :: acc, '?' :: rest => compileGlobAux (.opt a :: acc) rest
  | acc, c :: rest => compileGlobAux (.lit c :: acc) rest

/-- Compile a glob pattern to its regex-atom list. -/
def compileGlob (pattern : String) : Option (List GAtom) :=
  compileGlobAux [] pattern.toList

/-- Can the atom match the empty string? -/
def nullableAtom : GAtom → Bool
  | .lit _ => false
  | .starSeg => true
  | .starAll => true
  | .opt _ => true

/-- All ways an atom consumes the character `c`: `none` means the atom
is finished afterwards, `some a` means atom `a` remains active. -/
def consumeAtom : GAtom → Char → List (Option GAtom)
  | .lit d, c => if c == d then [none] else []
  | .starSeg, c => if c == '/' then [] else [some .starSeg]
  | .starAll, _ => [some .starAll]
  | .opt a, c => consumeAtom a c

/-- All atom lists that can remain after the sequence consumes `c`
(skipping any nullable prefix of the sequence). -/
def consume : List GAtom → Char → List (List GAtom)
  | [], _ => []
  | a :: as, c =>
      (consumeAtom a c).map (fun r =>
        match r with
        | some a1 => a1 :: as
        | none => as)
      ++ (if nullableAtom a then consume as c else [])

/-- Anchored regex matching of the atom sequence against the
characters: the empty string is accepted iff every atom is nullable,
and a first character must be consumed by the sequence. -/
def matchAtoms (atoms : List GAtom) : List Char → Bool
  | [] => atoms.all nullableAtom
  | c :: ds => (consume atoms c).any (fun as => matchAtoms as ds)

/-- Function `matchesGlobPattern` from `utils/filter-diagnostics.ts`. -/
def matchesGlobPattern (filePath : String) (pattern : String) : Bool :=
  match compileGlob pattern with
  | none => false
  | some atoms => matchAtoms atoms filePath.toList

/-! ## Ignore filtering (`utils/filter-diagnostics.ts`) -/

/-- The `ignore` object of `VueDoctorConfig` (`rules?: string[]`,
`files?: string[]`). -/
structure IgnoreConfig where
  rules : Option (List String) := none
  files : Option (List String) := none
  deriving Repr

/-- Structure `VueDoctorConfig` (the `ignore?` member). -/
structure VueDoctorConfig where
  ignore : Option IgnoreConfig := none
  deriving Repr

/-- Function `isRuleIgnored` from `utils/filter-diagnostics.ts`. -/
def isRuleIgnored (diagnostic : Diagnostic) (ignoredRules : List String) : Bool :=
  let fullRule := diagnostic.plugin ++ "/" ++ diagnostic.rule
  ignoredRules.any (fun ignoredRule =>
    ignoredRule == fullRule || ignoredRule == diagnostic.rule)

/-- Function `isFileIgnored` from `utils/filter-diagnostics.ts`. -/
def isFileIgnored (diagnostic : Diagnostic) (ignoredFiles : List String) : Bool :=
  ignoredFiles.any (fun pattern => matchesGlobPattern diagnostic.filePath pattern)

/-- Function `filterIgnoredDiagnostics` from `utils/filter-diagnostics.ts`
(`config.ignore?.rules ?? []` is `(config.ignore.bind rules).getD []`). -/
def filterIgnoredDiagnostics (diagnostics : List Diagnostic)
    (config : VueDoctorConfig) : List Diagnostic :=
  let ignoredRules := (config.ignore.bind (fun i => i.rules)).getD []
  let ignoredFiles := (config.ignore.bind (fun i => i.files)).getD []
  if ignoredRules.length = 0 && ignoredFiles.length = 0 then
    diagnostics
  else
    diagnostics.filter (fun diagnostic =>
      !isRuleIgnored diagnostic ignoredRules && !isFileIgnored diagnostic ignoredFiles)

/-! ## The `no-giant-component` rule (`plugin/rules/architecture.ts`) -/

/-- Constant `GIANT_COMPONENT_LINE_THRESHOLD` from `plugin/constants.ts`. -/
def GIANT_COMPONENT_LINE_THRESHOLD : Nat := 300

/-- The `Program` visitor of `noGiantComponent`: it reads
`context.getSourceCode().lines` and reports the single message id
`splitComponent` when `lines.length > GIANT_COMPONENT_LINE_THRESHOLD`.
The result is the list of reported message ids. -/
def noGiantComponentProgram (lines : List String) : List String :=
  if lines.length > GIANT_COMPONENT_LINE_THRESHOLD then ["splitComponent"] else []

/-! ## ESTree values and the AST walker (`plugin/helpers.ts`)

A JS value reachable from an AST node is modelled as:
* `vnode ty fields` — an object with a string `type` property `ty` and
  the remaining own properties `fields` in insertion order (`ty = ""`
  models a falsy `type`, so such an object is never recursed into);
* `varr items` — an array;
* `vstr s` — a string primitive;
* `vprim` — any other primitive (`null`, `undefined`, numbers,
  booleans), never an object, hence never visited nor recursed into.

`walkAst` returns the list of nodes passed to `visitor`, in call
order; the mutual helpers `walkItems` / `walkFields` / `walkChild`
correspond to the array loop, the `Object.keys` loop and the
per-property branch of the source.  Lean accepts the definition by
structural recursion, which is the termination part of the walker
contract. -/

/-- A JS value inside an ESTree AST. -/
inductive JsValue where
  | vnode (ty : String) (fields : List (String × JsValue))
  | varr (items : List JsValue)
  | vstr (s : String)
  | vprim
  deriving Repr

/-- The check `child && typeof child === "object" && child.type`: an object
carrying a truthy `type`. -/
def hasType : JsValue → Bool
  | .vnode ty _ => ty != ""
  | _ => false

mutual

/-- Function `walkAst` from `plugin/helpers.ts`: the trace of visited nodes in
visit order (`visitor` is called on the argument first, then on the
recursively visited children — pre-order, depth-first). -/
def walkAst : JsValue → List JsValue
  | .vprim => []
  | .vstr _ => []
  | .varr items => .varr items :: walkItems items
  | .vnode ty fields => .vnode ty fields :: walkFields fields

/-- The `Array.isArray(child)` loop of `walkAst`: recurse into the
items that are objects with a truthy `type`. -/
def walkItems : List JsValue → List JsValue
  | [] => []
  | item :: rest =>
      (if hasType item then walkAst item else []) ++ walkItems rest

/-- The `Object.keys(node)` loop of `walkAst`: properties in order,
skipping the key `"parent"`; the per-property body recurses into array
items and into objects with a truthy `type`. -/
def walkFields : List (String × JsValue) → List JsValue
  | [] => []
  | (key, child) :: rest =>
      (if key == "parent" then []
       else
         match child with
         | .varr items => walkItems items
         | c => if hasType c then walkAst c else []) ++ walkFields rest

end

/-- The per-property body of `walkAst` (the non-`parent` branch of
`walkFields`), named for use in lemma statements. -/
def walkChild : JsValue → List JsValue
  | .varr items => walkItems items
  | child => if hasType child then walkAst child else []

/-- Lookup of an own property (`node[key]`); `none` models an absent
property (JS object keys are unique, so first-match lookup agrees with
JS property access). -/
def getField (fields : List (String × JsValue)) (key : String) : Option JsValue :=
  (fields.find? (fun p => p.1 == key)).map (fun p => p.2)

/-- Function `isCallTo` from `plugin/helpers.ts` (single-name form):
`node.type === "CallExpression"`, `node.callee?.type === "Identifier"`,
`node.callee.name === name`. -/
def isCallTo (node : JsValue) (name : String) : Bool :=
  match node with
  | .vnode "CallExpression" fields =>
      (match getField fields "callee" with
       | some (.vnode "Identifier" calleeFields) =>
           (match getField calleeFields "name" with
            | some (.vstr s) => s == name
            | _ => false)
       | _ => false)
  | _ => false

/-- The check `firstArg.type === "ArrowFunctionExpression" || firstArg.type ===
"FunctionExpression"`, as checked twice inside `getWatchCallback`. -/
def isFunctionExpr (v : JsValue) : Bool :=
  match v with
  | .vnode ty _ => ty == "ArrowFunctionExpression" || ty == "FunctionExpression"
  | _ => false

/-- The property `node.arguments` viewed as an array of nodes. -/
def getArgs (node : JsValue) : Option (List JsValue) :=
  match node with
  | .vnode _ fields =>
      (match getField fields "arguments" with
       | some (.varr items) => some items
       | _ => none)
  | _ => none

/-- Function `getWatchCallback` from `plugin/helpers.ts`: for `watchEffect` the
first argument, for `watch` the second (when at least two arguments),
in both cases only when it is a function expression. -/
def getWatchCallback (node : JsValue) : Option JsValue :=
  match getArgs node with
  | none => none
  | some [] => none
  | some (firstArg :: restArgs) =>
      if isCallTo node "watchEffect" && isFunctionExpr firstArg then
        some firstArg
      else
        match restArgs with
        | secondArg :: _ =>
            if isCallTo node "watch" && isFunctionExpr secondArg then
              some secondArg
            else none
        | [] => none

/-- Function `getBodyStatements` from `plugin/helpers.ts`: the statement list of
a `BlockStatement` body (`?? []`), the singleton of an expression body,
and `[]` for an absent or falsy body. -/
def getBodyStatements (callback : JsValue) : List JsValue :=
  match callback with
  | .vnode _ fields =>
      (match getField fields "body" with
       | some (.vnode "BlockStatement" bodyFields) =>
           (match getField bodyFields "body" with
            | some (.varr stmts) => stmts
            | _ => [])
       | some .vprim => []
       | some body => [body]
       | none => [])
  | _ => []

/-- The check of `containsAwait`: `child.type === "AwaitExpression"`. -/
def isAwaitExpression (child : JsValue) : Bool :=
  match child with
  | .vnode "AwaitExpression" _ => true
  | _ => false

/-- Function `containsAwait` from `plugin/helpers.ts` (a found-flag over the
`walkAst` traversal is `List.any` over its trace). -/
def containsAwait (node : JsValue) : Bool :=
  (walkAst node).any isAwaitExpression

/-- The `FETCH_NAMES` set of `containsFetchCall`. -/
def FETCH_NAMES : List String := ["fetch", "axios", "got", "ky", "request"]

/-- The per-node check of `containsFetchCall`: a `CallExpression` whose
callee is an `Identifier` named in `FETCH_NAMES`, or a
`MemberExpression` whose object has a `name` in `FETCH_NAMES`. -/
def isFetchCallNode (child : JsValue) : Bool :=
  match child with
  | .vnode "CallExpression" fields =>
      (match getField fields "callee" with
       | some (.vnode "Identifier" calleeFields) =>
           (match getField calleeFields "name" with
            | some (.vstr s) => FETCH_NAMES.contains s
            | _ => false)
       | some (.vnode "MemberExpression" calleeFields) =>
           (match getField calleeFields "object" with
            | some (.vnode _ objFields) =>
                (match getField objFields "name" with
                 | some (.vstr s) => FETCH_NAMES.contains s
                 | _ => false)
            | _ => false)
       | _ => false)
  | _ => false

/-- Function `containsFetchCall` from `plugin/helpers.ts`. -/
def containsFetchCall (node : JsValue) : Bool :=
  (walkAst node).any isFetchCallNode

/-- The per-node check of `countRefAssignments` (and of
`containsRefAssignment`): an `AssignmentExpression` whose left side is
a `MemberExpression` with `property.name === "value"`. -/
def isValueAssignment (child : JsValue) : Bool :=
  match child with
  | .vnode "AssignmentExpression" fields =>
      (match getField fields "left" with
       | some (.vnode "MemberExpression" leftFields) =>
           (match getField leftFields "property" with
            | some (.vnode _ propFields) =>
                (match getField propFields "name" with
                 | some (.vstr s) => s == "value"
                 | _ => false)
            | _ => false)
       | _ => false)
  | _ => false

/-- Function `countRefAssignments` from `plugin/helpers.ts`. -/
def countRefAssignments (node : JsValue) : Nat :=
  ((walkAst node).filter isValueAssignment).length

/-- The statement shape required by `noWatchAsComputed`:
`stmt.type === "ExpressionStatement" && stmt.expression?.type ===
"AssignmentExpression"`. -/
def isExpressionAssignment (stmt : JsValue) : Bool :=
  match stmt with
  | .vnode "ExpressionStatement" fields =>
      (match getField fields "expression" with
       | some (.vnode "AssignmentExpression" _) => true
       | _ => false)
  | _ => false

/-- The `CallExpression` visitor of the `no-watch-as-computed` rule
(`noWatchAsComputed` in `plugin/rules/composition-api`): whether it
reports the `useComputed` message on this node. -/
def noWatchAsComputedFires (node : JsValue) : Bool :=
  if !(isCallTo node "watch") then false
  else
    match getWatchCallback node with
    | none => false
    | some callback =>
        let statements := getBodyStatements callback
        if statements.length = 0 then false
        else if !(statements.all isExpressionAssignment) then false
        else
          let refAssignCount := countRefAssignments callback
          if refAssignCount = 0 || refAssignCount ≠ statements.length then false
          else if containsFetchCall callback || containsAwait callback then false
          else true

/-- The check `child.type === "CallExpression"`. -/
def isCallExpression (v : JsValue) : Bool :=
  match v with
  | .vnode "CallExpression" _ => true
  | _ => false

/-- The `require-emits-declaration` rule (`requireEmitsDeclaration` in
`plugin/rules/architecture.ts`): its `CallExpression` visitor sets
`hasDefineEmits` on any call to the identifier `defineEmits` and
collects every call to the identifier `emit`; at `Program:exit` it
reports once per collected emit call unless `hasDefineEmits`.  The
visitor fires on every `CallExpression` node of the file, modelled as
the `CallExpression` nodes of the traversal trace; the result is the
list of nodes reported on. -/
def requireEmitsDeclarationReports (program : JsValue) : List JsValue :=
  let calls := (walkAst program).filter isCallExpression
  let hasDefineEmits := calls.any (fun c => isCallTo c "defineEmits")
  let emitCalls := calls.filter (fun c => isCallTo c "emit")
  if !hasDefineEmits && emitCalls.length > 0 then emitCalls else []

/-! ## Node constructors for concrete programs (test fixtures) -/

/-- An `Identifier` node. -/
def mkIdent (name : String) : JsValue :=
  .vnode "Identifier" [("name", .vstr name)]

/-- A `Literal` node. -/
def mkLit (value : String) : JsValue :=
  .vnode "Literal" [("value", .vstr value)]

/-- A call `calleeName(args...)`. -/
def mkCall (calleeName : String) (args : List JsValue) : JsValue :=
  .vnode "CallExpression" [("callee", mkIdent calleeName), ("arguments", .varr args)]

/-- A member expression `objName.value`. -/
def mkMember (objName : String) : JsValue :=
  .vnode "MemberExpression" [("object", mkIdent objName), ("property", mkIdent "value")]

/-- An assignment `objName.value = rhs`. -/
def mkValueAssign (objName : String) (rhs : JsValue) : JsValue :=
  .vnode "AssignmentExpression"
    [("operator", .vstr "="), ("left", mkMember objName), ("right", rhs)]

/-- An expression statement. -/
def mkExprStmt (e : JsValue) : JsValue :=
  .vnode "ExpressionStatement" [("expression", e)]

/-- An arrow function `() => { stmts }`. -/
def mkArrowBlock (stmts : List JsValue) : JsValue :=
  .vnode "ArrowFunctionExpression"
    [("params", .varr []),
     ("body", .vnode "BlockStatement" [("body", .varr stmts)])]

/-- A call `watch(dep, callback)`. -/
def mkWatch (dep : JsValue) (callback : JsValue) : JsValue :=
  mkCall "watch" [dep, callback]

/-- A `Program` node with the given body statements. -/
def mkProgram (stmts : List JsValue) : JsValue :=
  .vnode "Program" [("body", .varr stmts)]

/-- A right-hand side is "clean" for the `no-watch-as-computed`
analysis when the traversal of the `right` property meets no further
`.value` assignment, no fetch-style call and no await expression. -/
def cleanDerivedRhs (rhs : JsValue) : Bool :=
  (walkChild rhs).all (fun v =>
    !(isValueAssignment v) && !(isFetchCallNode v) && !(isAwaitExpression v))

/-- The node type of a value (`""` for non-nodes), used to identify
visited nodes in traces. -/
def tyOf : JsValue → String
  | .vnode ty _ => ty
  | _ => ""

/-- Convergent-parent example: a root with two children, each holding a
`parent` property pointing back at (a copy of) the root — following
`parent` would revisit the root and loop forever. -/
def convergentRoot : JsValue :=
  .vnode "Root"
    [("left", .vnode "ChildA" [("parent", .vnode "Root" [])]),
     ("right", .vnode "ChildB" [("parent", .vnode "Root" [])])]

/-- Program fixture: two `emit(...)` calls and no `defineEmits`. -/
def progTwoEmits : JsValue :=
  mkProgram [mkExprStmt (mkCall "emit" [mkLit "change"]),
             mkExprStmt (mkCall "emit" [mkLit "update"])]

/-- Program fixture: two `emit(...)` calls followed by `defineEmits()`. -/
def progEmitsThenDefine : JsValue :=
  mkProgram [mkExprStmt (mkCall "emit" [mkLit "change"]),
             mkExprStmt (mkCall "emit" [mkLit "update"]),
             mkExprStmt (mkCall "defineEmits" [])]

/-- Program fixture: `defineEmits()` followed by two `emit(...)` calls. -/
def progDefineThenEmits : JsValue :=
  mkProgram [mkExprStmt (mkCall "defineEmits" []),
             mkExprStmt (mkCall "emit" [mkLit "change"]),
             mkExprStmt (mkCall "emit" [mkLit "update"])]

/-- Statement fixture: the statement `p.1.value = p.2;`. -/
def mkDerivedStmt (p : String × JsValue) : JsValue :=
  mkExprStmt (mkValueAssign p.1 p.2)

/-- Config fixture: ignore the bare rule name `no-v-html`. -/
def cfgBare : VueDoctorConfig := { ignore := some { rules := some ["no-v-html"] } }

/-- Config fixture: ignore the full rule id `vue-doctor/no-v-html`. -/
def cfgFull : VueDoctorConfig := { ignore := some { rules := some ["vue-doctor/no-v-html"] } }

/-- The score of a non-empty diagnostic list as a function of the error
and warning counts (the arithmetic core of `calculateScore`). -/
def scoreOfCounts (errorCount warningCount : Nat) : Nat :=
  (max 0 ((200 - min ((errorCount : Int) * 8 + (warningCount : Int) * 3) 200 + 1) / 2)).toNat

/-! ## Score properties (claims C1, C3, C10) -/

/-- Unfolding of the `score` component of `calculateScore`. -/
lemma calculateScore_score (D : List Diagnostic) :
    (calculateScore D).score =
      if D.length = 0 then 100
      else scoreOfCounts (D.filter (fun d => d.severity == "error")).length
        (D.filter (fun d => d.severity == "warning")).length := by
  unfold calculateScore scoreOfCounts
  split <;> rfl

/-- Unfolding of the `label` component of `calculateScore`. -/
lemma calculateScore_label (D : List Diagnostic) :
    (calculateScore D).label =
      if D.length = 0 then "Perfect"
      else if (calculateScore D).score ≥ 75 then "Good"
      else if (calculateScore D).score ≥ 50 then "OK"
      else "Critical" := by
  unfold calculateScore
  split <;> rfl

/-- The arithmetic core never exceeds 100. -/
lemma scoreOfCounts_le_100 (e w : Nat) : scoreOfCounts e w ≤ 100 := by
  unfold scoreOfCounts; omega

/-- The arithmetic core is antitone in both counts. -/
lemma scoreOfCounts_antitone {e e1 w w1 : Nat} (he : e ≤ e1) (hw : w ≤ w1) :
    scoreOfCounts e1 w1 ≤ scoreOfCounts e w := by
  unfold scoreOfCounts; omega

/-- Every score is at most 100. -/
lemma calculateScore_le_100 (D : List Diagnostic) : (calculateScore D).score ≤ 100 := by
  rw [calculateScore_score]
  split
  · exact le_refl 100
  · exact scoreOfCounts_le_100 _ _

/-- C1: `calculateScore` implements the specified formula — for every
diagnostics list it agrees with the spec-worded formula
(`penalty = min(4*errors + 1.5*warnings, 100)`,
`score = round(max(0, 100 - penalty))`, labels by the 75/50 thresholds,
empty list gives 100/"Perfect"), the score is an integer in `[0, 100]`
(`score` is a `Nat`, so nonnegative by type), and the five concrete
samples come out as stated: 1 error gives 96 "Good", 4 errors 84
"Good", 10 warnings 85 "Good", 2 errors + 1 warning 91 "Good", and 30
errors 0 "Critical". -/
theorem calculateScore_matches_spec_formula :
    (∀ D : List Diagnostic,
      calculateScore D = calculateScoreSpec D ∧ (calculateScore D).score ≤ 100)
    ∧ calculateScore [] = { score := 100, label := "Perfect" }
    ∧ calculateScore [errDiag] = { score := 96, label := "Good" }
    ∧ calculateScore (List.replicate 4 errDiag) = { score := 84, label := "Good" }
    ∧ calculateScore (List.replicate 10 warnDiag) = { score := 85, label := "Good" }
    ∧ calculateScore [errDiag, errDiag, warnDiag] = { score := 91, label := "Good" }
    ∧ calculateScore (List.replicate 30 errDiag) = { score := 0, label := "Critical" } := by
  refine ⟨fun D => ⟨?_, calculateScore_le_100 D⟩,
    by decide, by decide, by decide, by decide, by decide, by decide⟩
  unfold calculateScore calculateScoreSpec
  split
  · rfl
  · have hs : ∀ e w : Nat,
        (max 0 ((200 - min ((e : Int) * 8 + (w : Int) * 3) 200 + 1) / 2)).toNat
          = ((max 0 (200 - min (8 * (e : Int) + 3 * (w : Int)) 200) + 1) / 2).toNat := by
      intro e w; omega
    simp only [PERFECT_SCORE, SCORE_GOOD_THRESHOLD, SCORE_OK_THRESHOLD, hs, ge_iff_le]

/-- C3: the health score is monotonically non-increasing under
appending one further diagnostic of severity error or warning, and it
can never go negative (the score is a `Nat`; stated via the `Int`
coercion). -/
theorem calculateScore_monotone_nonincreasing :
    ∀ (D : List Diagnostic) (d : Diagnostic),
      d.severity = "error" ∨ d.severity = "warning" →
      (calculateScore (D ++ [d])).score ≤ (calculateScore D).score ∧
      0 ≤ ((calculateScore (D ++ [d])).score : Int) := by
  intro D d _h
  refine ⟨?_, Int.ofNat_nonneg _⟩
  rw [calculateScore_score D, calculateScore_score (D ++ [d])]
  by_cases hD : D.length = 0
  · simp only [hD, if_pos rfl]
    split
    · exact le_refl 100
    · exact scoreOfCounts_le_100 _ _
  · have hD1 : ¬ (D ++ [d]).length = 0 := by simp
    rw [if_neg hD, if_neg hD1]
    apply scoreOfCounts_antitone <;>
      simp [List.filter_append, List.length_append]

/-- Witness for C3 at a concrete input: appending an error diagnostic
to a one-warning list does not increase the score. -/
theorem calculateScore_monotone_nonincreasing_witness :
    (errDiag.severity = "error" ∨ errDiag.severity = "warning") ∧
    (calculateScore ([warnDiag] ++ [errDiag])).score ≤ (calculateScore [warnDiag]).score :=
  ⟨Or.inl rfl, (calculateScore_monotone_nonincreasing [warnDiag] errDiag (Or.inl rfl)).1⟩

/-- C10: `calculateScore` returns score 100 with label "Perfect"
exactly for the empty diagnostics list; any non-empty list of
error/warning diagnostics scores at most 99; and a single warning gives
`round(98.5) = 99`. -/
theorem perfect_score_iff_empty :
    (∀ D : List Diagnostic,
      ((calculateScore D).label = "Perfect" ↔ D = []) ∧
      (calculateScore D = { score := 100, label := "Perfect" } ↔ D = []))
    ∧ (∀ D : List Diagnostic, D ≠ [] →
        (∀ d ∈ D, d.severity = "error" ∨ d.severity = "warning") →
        (calculateScore D).score ≤ 99)
    ∧ calculateScore [warnDiag] = { score := 99, label := "Good" } := by
  refine ⟨fun D => ?_, fun D hne hall => ?_, by decide⟩
  · have hlab : (calculateScore D).label = "Perfect" ↔ D = [] := by
      rw [calculateScore_label]
      by_cases hD : D.length = 0
      · simp [hD, List.length_eq_zero.mp hD]
      · have hDne : ¬ D = [] := fun h => hD (by simp [h])
        rw [if_neg hD]
        constructor
        · intro h
          exfalso
          revert h
          split
          · intro h; exact absurd h (by decide)
          · split
            · intro h; exact absurd h (by decide)
            · intro h; exact absurd h (by decide)
        · intro h; exact absurd h hDne
    refine ⟨hlab, ?_⟩
    constructor
    · intro h
      exact hlab.mp (by rw [h])
    · intro h
      subst h
      decide
  · rw [calculateScore_score, if_neg (by simpa using hne)]
    obtain ⟨d, hd⟩ := List.exists_mem_of_ne_nil D hne
    have h1 : 1 ≤ (D.filter (fun x => x.severity == "error")).length +
        (D.filter (fun x => x.severity == "warning")).length := by
      rcases hall d hd with hs | hs
      · have hmem : d ∈ D.filter (fun x => x.severity == "error") :=
          List.mem_filter.mpr ⟨hd, by simp [hs]⟩
        have := List.length_pos.mpr (List.ne_nil_of_mem hmem)
        omega
      · have hmem : d ∈ D.filter (fun x => x.severity == "warning") :=
          List.mem_filter.mpr ⟨hd, by simp [hs]⟩
        have := List.length_pos.mpr (List.ne_nil_of_mem hmem)
        omega
    unfold scoreOfCounts
    omega

/-- Witness for C10 at a concrete input: a one-error list is non-empty,
all its members are errors or warnings, and its score is at most 99. -/
theorem perfect_score_iff_empty_witness :
    ([errDiag] ≠ ([] : List Diagnostic)) ∧
    (∀ d ∈ [errDiag], d.severity = "error" ∨ d.severity = "warning") ∧
    (calculateScore [errDiag]).score ≤ 99 :=
  ⟨by decide, by decide,
    perfect_score_iff_empty.2.1 [errDiag] (by decide) (by decide)⟩

/-! ## Ignore filtering properties (claims C4, C5, C2) -/

/-- C4: ignore filtering is idempotent — filtering an already-filtered
diagnostics list with the same config yields the same list. -/
theorem filterIgnoredDiagnostics_idempotent :
    ∀ (D : List Diagnostic) (c : VueDoctorConfig),
      filterIgnoredDiagnostics (filterIgnoredDiagnostics D c) c =
        filterIgnoredDiagnostics D c := by
  intro D c
  simp only [filterIgnoredDiagnostics]
  split
  · rfl
  · simp [List.filter_filter]

/-- C5: an ignore-rules entry suppresses a diagnostic exactly when it
equals the diagnostic's rule name or its `plugin/rule` form; in
particular a `vue-doctor` / `no-v-html` diagnostic is removed by
filtering under either the bare entry `"no-v-html"` or the full entry
`"vue-doctor/no-v-html"`. -/
theorem isRuleIgnored_both_forms :
    (∀ (d : Diagnostic) (rules : List String),
      isRuleIgnored d rules = true ↔
        ∃ r ∈ rules, r = d.rule ∨ r = d.plugin ++ "/" ++ d.rule)
    ∧ filterIgnoredDiagnostics [errDiag] cfgBare = []
    ∧ filterIgnoredDiagnostics [errDiag] cfgFull = [] := by
  refine ⟨fun d rules => ?_, by decide, by decide⟩
  simp only [isRuleIgnored, List.any_eq_true, Bool.or_eq_true, beq_iff_eq]
  constructor
  · rintro ⟨r, hr, h | h⟩
    · exact ⟨r, hr, Or.inr h⟩
    · exact ⟨r, hr, Or.inl h⟩
  · rintro ⟨r, hr, h | h⟩
    · exact ⟨r, hr, Or.inr h⟩
    · exact ⟨r, hr, Or.inl h⟩

/-- C2 counterexample: the claim says pattern `"src/?.vue"` matches
`"src/a.vue"` (`?` matching exactly one character), but the matcher
rejects it — the code never translates `?`, leaving it as a regex
optional-quantifier on the preceding `/`. -/
theorem glob_question_mark_claim_false :
    matchesGlobPattern "src/a.vue" "src/?.vue" = false := by decide

/-- C2 (amended): the glob matcher anchors the pattern to the full
path, `**` matches across path segments (`.*` accepts every string),
`*` matches only within a single path segment (`[^/]*` accepts exactly
the slash-free strings), with the stated `**` and `*` examples; but `?`
is not a single-character wildcard: it makes the preceding atom
optional, so `"src/?.vue"` matches `"src.vue"` and `"src/.vue"` and
neither `"src/a.vue"` nor `"src/ab.vue"`. -/
theorem glob_matcher_amended :
    (∀ cs : List Char, matchAtoms [GAtom.starAll] cs = true)
    ∧ (∀ cs : List Char, matchAtoms [GAtom.starSeg] cs = true ↔ '/' ∉ cs)
    ∧ (∀ cs : List Char, matchAtoms [] cs = true ↔ cs = [])
    ∧ matchesGlobPattern "/src/components/Bad.vue" "**/Bad.vue" = true
    ∧ matchesGlobPattern "/src/views/Bad.vue" "**/Bad.vue" = true
    ∧ matchesGlobPattern "/src/components/Good.vue" "**/Bad.vue" = false
    ∧ matchesGlobPattern "/src/a.vue" "/src/*.vue" = true
    ∧ matchesGlobPattern "/src/components/a.vue" "/src/*.vue" = false
    ∧ matchesGlobPattern "/other/src/a.vue" "/src/*.vue" = false
    ∧ matchesGlobPattern "src/a.vue" "src/?.vue" = false
    ∧ matchesGlobPattern "src/ab.vue" "src/?.vue" = false
    ∧ matchesGlobPattern "src.vue" "src/?.vue" = true
    ∧ matchesGlobPattern "src/.vue" "src/?.vue" = true := by
  refine ⟨fun cs => ?_, fun cs => ?_, fun cs => ?_,
    by decide, by decide, by decide, by decide, by decide, by decide,
    by decide, by decide, by decide, by decide⟩
  · induction cs with
    | nil => rfl
    | cons c cs ih => simp [matchAtoms, consume, consumeAtom, nullableAtom, ih]
  · induction cs with
    | nil => simp [matchAtoms, nullableAtom]
    | cons c cs ih =>
        by_cases h : c = '/'
        · simp [matchAtoms, consume, consumeAtom, nullableAtom, h]
        · simp [matchAtoms, consume, consumeAtom, nullableAtom, h, ih]
          exact fun _ hc => h hc.symm
  · induction cs with
    | nil => simp [matchAtoms]
    | cons c cs ih => simp [matchAtoms, consume]

/-- The glob matcher agrees with the repository's own unit tests for
exact paths and directory patterns. -/
example : matchesGlobPattern "/src/generated/one.vue" "/src/generated/**" = true := by decide

example : matchesGlobPattern "/src/components/two.vue" "/src/generated/**" = false := by decide

example : matchesGlobPattern "/src/test.vue" "/src/*.vue" = true := by decide

example : matchesGlobPattern "/src/components/test.vue" "/src/*.vue" = false := by decide

/-! ## The giant-component threshold (claim C7) -/

set_option maxRecDepth 8000 in
/-- C7: the `no-giant-component` Program visitor reports exactly when
the line count strictly exceeds 300 — a 300-line file does not fire,
a 301-line file fires. -/
theorem noGiantComponent_threshold :
    (∀ lines : List String,
      (noGiantComponentProgram lines = ["splitComponent"] ↔ lines.length > 300)
      ∧ (noGiantComponentProgram lines = [] ↔ lines.length ≤ 300))
    ∧ noGiantComponentProgram (List.replicate 300 "") = []
    ∧ noGiantComponentProgram (List.replicate 301 "") = ["splitComponent"] := by
  refine ⟨fun lines => ?_, by decide, by decide⟩
  simp only [noGiantComponentProgram, GIANT_COMPONENT_LINE_THRESHOLD]
  split <;> simp_all

/-! ## Walker properties (claim C6) -/

/-- Empty property list: nothing to walk. -/
lemma walkFields_nil : walkFields [] = [] := rfl

/-- One step of the `Object.keys` loop, phrased with `walkChild`. -/
lemma walkFields_cons (key : String) (child : JsValue) (rest : List (String × JsValue)) :
    walkFields ((key, child) :: rest) =
      (if key == "parent" then [] else walkChild child) ++ walkFields rest := by
  cases child <;> rfl

/-- C6: `walkAst` terminates (it is a total structurally recursive
function), visits every node pre-order and depth-first starting with
the root itself, descends into singular object children and into array
children, never recurses into a `parent` property (dropping it from
the traversal entirely, whatever node it holds), and on the
convergent-parent fixture each node is visited exactly once. -/
theorem walkAst_visits_once_preorder :
    (∀ v : JsValue, hasType v = true → (walkAst v).head? = some v)
    ∧ (∀ (fs1 : List (String × JsValue)) (p : JsValue) (fs2 : List (String × JsValue)),
        walkFields (fs1 ++ ("parent", p) :: fs2) = walkFields (fs1 ++ fs2))
    ∧ (∀ (ty key cty : String) (cfields : List (String × JsValue)),
        key ≠ "parent" → cty ≠ "" →
        walkAst (.vnode ty [(key, .vnode cty cfields)]) =
          .vnode ty [(key, .vnode cty cfields)] :: walkAst (.vnode cty cfields))
    ∧ (∀ (ty key : String) (items : List JsValue),
        key ≠ "parent" →
        walkAst (.vnode ty [(key, .varr items)]) =
          .vnode ty [(key, .varr items)] :: walkItems items)
    ∧ (∀ (ity : String) (ifields : List (String × JsValue)) (rest : List JsValue),
        ity ≠ "" →
        walkItems (.vnode ity ifields :: rest) =
          walkAst (.vnode ity ifields) ++ walkItems rest)
    ∧ (walkAst convergentRoot).map tyOf = ["Root", "ChildA", "ChildB"]
    ∧ ((walkAst convergentRoot).map tyOf).Nodup := by
  refine ⟨fun v hv => ?_, fun fs1 p fs2 => ?_, fun ty key cty cfields hk hc => ?_,
    fun ty key items hk => ?_, fun ity ifields rest hi => ?_, rfl, by decide⟩
  · cases v <;> simp_all [hasType, walkAst]
  · induction fs1 with
    | nil => simp [walkFields_cons]
    | cons kc fs1 ih =>
        obtain ⟨k, c⟩ := kc
        simp [walkFields_cons, ih]
  · simp [walkAst, walkFields_cons, walkFields_nil, walkChild, hasType, hk, hc]
  · simp [walkAst, walkFields_cons, walkFields_nil, walkChild, hk]
  · simp [walkItems, hasType, hi]

/-- Witness for C6 at a concrete input: a `Program` node with a typed
`body` child is visited before that child, which is itself walked. -/
theorem walkAst_visits_once_preorder_witness :
    ("body" ≠ "parent") ∧ ("Identifier" ≠ "") ∧
    walkAst (.vnode "Program" [("body", .vnode "Identifier" [])]) =
      .vnode "Program" [("body", .vnode "Identifier" [])] ::
        walkAst (.vnode "Identifier" []) :=
  ⟨by decide, by decide,
    walkAst_visits_once_preorder.2.2.1 "Program" "body" "Identifier" []
      (by decide) (by decide)⟩

/-! ## The `require-emits-declaration` rule (claim C8) -/

/-- C8: the reports of `require-emits-declaration` are empty as soon as
any `defineEmits(...)` call occurs anywhere in the file (before or
after the emit calls), and otherwise are exactly the `emit(...)` call
sites, one report per site; the two-emit fixtures confirm both
orders. -/
theorem requireEmitsDeclaration_per_site :
    (∀ program : JsValue,
      requireEmitsDeclarationReports program =
        if ((walkAst program).filter isCallExpression).any (fun c => isCallTo c "defineEmits")
        then []
        else ((walkAst program).filter isCallExpression).filter (fun c => isCallTo c "emit"))
    ∧ requireEmitsDeclarationReports progTwoEmits =
        [mkCall "emit" [mkLit "change"], mkCall "emit" [mkLit "update"]]
    ∧ requireEmitsDeclarationReports progEmitsThenDefine = []
    ∧ requireEmitsDeclarationReports progDefineThenEmits = [] := by
  refine ⟨fun program => ?_, rfl, rfl, rfl⟩
  simp only [requireEmitsDeclarationReports]
  by_cases h : ((walkAst program).filter isCallExpression).any
      (fun c => isCallTo c "defineEmits") = true
  · simp [h]
  · simp only [Bool.not_eq_true] at h
    rcases Nat.eq_zero_or_pos (((walkAst program).filter isCallExpression).filter
        (fun c => isCallTo c "emit")).length with h0 | hpos
    · simp [h, h0, List.length_eq_zero.mp h0]
    · simp [h, hpos]

/-! ## The `no-watch-as-computed` rule (claim C9) -/

/-- Predicate values on an `Identifier` fixture node. -/
lemma preds_mkIdent (s : String) :
    isValueAssignment (mkIdent s) = false ∧ isFetchCallNode (mkIdent s) = false ∧
      isAwaitExpression (mkIdent s) = false := ⟨rfl, rfl, rfl⟩

/-- Predicate values on a `MemberExpression` fixture node. -/
lemma preds_mkMember (o : String) :
    isValueAssignment (mkMember o) = false ∧ isFetchCallNode (mkMember o) = false ∧
      isAwaitExpression (mkMember o) = false := ⟨rfl, rfl, rfl⟩

/-- Predicate values on a `.value` assignment fixture node. -/
lemma preds_mkValueAssign (o : String) (r : JsValue) :
    isValueAssignment (mkValueAssign o r) = true ∧
      isFetchCallNode (mkValueAssign o r) = false ∧
      isAwaitExpression (mkValueAssign o r) = false := ⟨rfl, rfl, rfl⟩

/-- Predicate values on a `.value`-assignment statement fixture. -/
lemma preds_mkDerivedStmt (p : String × JsValue) :
    isValueAssignment (mkDerivedStmt p) = false ∧
      isFetchCallNode (mkDerivedStmt p) = false ∧
      isAwaitExpression (mkDerivedStmt p) = false ∧
      hasType (mkDerivedStmt p) = true ∧
      isExpressionAssignment (mkDerivedStmt p) = true := ⟨rfl, rfl, rfl, rfl, rfl⟩

/-- Predicate values on an arrow-function fixture node. -/
lemma preds_mkArrowBlock (stmts : List JsValue) :
    isValueAssignment (mkArrowBlock stmts) = false ∧
      isFetchCallNode (mkArrowBlock stmts) = false ∧
      isAwaitExpression (mkArrowBlock stmts) = false := ⟨rfl, rfl, rfl⟩

/-- Predicate values on a `BlockStatement` fixture node. -/
lemma preds_mkBlock (stmts : List JsValue) :
    isValueAssignment (.vnode "BlockStatement" [("body", .varr stmts)]) = false ∧
      isFetchCallNode (.vnode "BlockStatement" [("body", .varr stmts)]) = false ∧
      isAwaitExpression (.vnode "BlockStatement" [("body", .varr stmts)]) = false :=
  ⟨rfl, rfl, rfl⟩

/-- Traversal trace of one `o.value = r;` statement: the statement, the
assignment, the member, the two identifiers, then the walk of `r`. -/
lemma walkAst_mkDerivedStmt (o : String) (r : JsValue) :
    walkAst (mkDerivedStmt (o, r)) =
      [mkDerivedStmt (o, r), mkValueAssign o r, mkMember o,
       mkIdent o, mkIdent "value"] ++ walkChild r := by
  simp [mkDerivedStmt, mkExprStmt, mkValueAssign, mkMember, mkIdent, walkAst,
    walkFields_cons, walkFields_nil, walkChild, hasType, walkItems]

/-- A clean right-hand side contributes no `.value` assignment, no
fetch-style call and no await to the traversal. -/
lemma cleanDerivedRhs_props {r : JsValue} (h : cleanDerivedRhs r = true) :
    (walkChild r).filter isValueAssignment = [] ∧
      (walkChild r).any isFetchCallNode = false ∧
      (walkChild r).any isAwaitExpression = false := by
  simp only [cleanDerivedRhs, List.all_eq_true, Bool.and_eq_true, Bool.not_eq_true'] at h
  refine ⟨List.filter_eq_nil_iff.mpr ?_, ?_, ?_⟩
  · intro v hv
    simp [(h v hv).1.1]
  · rw [List.any_eq_false]
    intro v hv
    simp [(h v hv).1.2]
  · rw [List.any_eq_false]
    intro v hv
    simp [(h v hv).2]

/-- Over a body of clean `.value`-assignment statements the traversal
counts exactly one `.value` assignment per statement and meets no
fetch call and no await. -/
lemma walkItems_derived (ps : List (String × JsValue))
    (h : ∀ p ∈ ps, cleanDerivedRhs p.2 = true) :
    ((walkItems (ps.map mkDerivedStmt)).filter isValueAssignment).length = ps.length
    ∧ (walkItems (ps.map mkDerivedStmt)).any isFetchCallNode = false
    ∧ (walkItems (ps.map mkDerivedStmt)).any isAwaitExpression = false := by
  induction ps with
  | nil => simp [walkItems]
  | cons p rest ih =>
      obtain ⟨o, r⟩ := p
      obtain ⟨hfil, hfetch, hawait⟩ := cleanDerivedRhs_props (h (o, r) (List.mem_cons_self _ _))
      obtain ⟨ih1, ih2, ih3⟩ := ih (fun q hq => h q (by simp [hq]))
      refine ⟨?_, ?_, ?_⟩ <;>
        simp [walkItems, preds_mkDerivedStmt, walkAst_mkDerivedStmt,
          List.filter_append, List.any_append, preds_mkValueAssign, preds_mkMember,
          preds_mkIdent, hfil, hfetch, hawait, ih1, ih2, ih3]

/-- C9: `no-watch-as-computed` fires on a `watch(dep, cb)` call whose
block body is a non-empty sequence of `x.value = e;` statements whose
right-hand sides bring no further `.value` assignment, no fetch-style
call and no await; it does not fire when the callback contains a
fetch-style call or an await anywhere, nor when some body statement is
not an expression-statement assignment (a side effect beyond
value-assignment), as the three concrete fixtures also show. -/
theorem noWatchAsComputed_derived_state :
    (∀ (dep : JsValue) (ps : List (String × JsValue)),
      ps ≠ [] →
      (∀ p ∈ ps, cleanDerivedRhs p.2 = true) →
      noWatchAsComputedFires (mkWatch dep (mkArrowBlock (ps.map mkDerivedStmt))) = true)
    ∧ (∀ (node cb : JsValue),
        getWatchCallback node = some cb →
        containsFetchCall cb = true ∨ containsAwait cb = true →
        noWatchAsComputedFires node = false)
    ∧ (∀ (node cb stmt : JsValue),
        getWatchCallback node = some cb →
        stmt ∈ getBodyStatements cb →
        isExpressionAssignment stmt = false →
        noWatchAsComputedFires node = false)
    ∧ noWatchAsComputedFires (mkWatch (mkIdent "source")
        (mkArrowBlock [mkDerivedStmt ("doubled", mkCall "fetch" [mkLit "/api"])])) = false
    ∧ noWatchAsComputedFires (mkWatch (mkIdent "source")
        (mkArrowBlock [mkDerivedStmt ("doubled",
          .vnode "AwaitExpression" [("argument", mkCall "load" [])])])) = false
    ∧ noWatchAsComputedFires (mkWatch (mkIdent "source")
        (mkArrowBlock [mkDerivedStmt ("doubled", mkIdent "source"),
                       mkExprStmt (mkCall "track" [])])) = false := by
  refine ⟨fun dep ps hne hclean => ?_, fun node cb hwc hor => ?_,
    fun node cb stmt hwc hmem hshape => ?_, rfl, rfl, rfl⟩
  · have hct : isCallTo (mkWatch dep (mkArrowBlock (ps.map mkDerivedStmt))) "watch" = true := rfl
    have hwc : getWatchCallback (mkWatch dep (mkArrowBlock (ps.map mkDerivedStmt))) =
        some (mkArrowBlock (ps.map mkDerivedStmt)) := rfl
    have hbs : getBodyStatements (mkArrowBlock (ps.map mkDerivedStmt)) =
        ps.map mkDerivedStmt := rfl
    have hwalk : walkAst (mkArrowBlock (ps.map mkDerivedStmt)) =
        mkArrowBlock (ps.map mkDerivedStmt) ::
          JsValue.vnode "BlockStatement" [("body", JsValue.varr (ps.map mkDerivedStmt))] ::
          walkItems (ps.map mkDerivedStmt) := by
      simp [mkArrowBlock, walkAst, walkFields_cons, walkFields_nil, walkChild,
        hasType, walkItems]
    obtain ⟨hcount, hfetch, hawait⟩ := walkItems_derived ps hclean
    have hne0 : ps.length ≠ 0 := by
      cases ps with
      | nil => exact absurd rfl hne
      | cons a l => simp
    have hcnt : countRefAssignments (mkArrowBlock (ps.map mkDerivedStmt)) = ps.length := by
      simp [countRefAssignments, hwalk, preds_mkArrowBlock, preds_mkBlock, hcount]
    have hf : containsFetchCall (mkArrowBlock (ps.map mkDerivedStmt)) = false := by
      simp [containsFetchCall, hwalk, preds_mkArrowBlock, preds_mkBlock, hfetch]
    have ha : containsAwait (mkArrowBlock (ps.map mkDerivedStmt)) = false := by
      simp [containsAwait, hwalk, preds_mkArrowBlock, preds_mkBlock, hawait]
    have hall : (ps.map mkDerivedStmt).all isExpressionAssignment = true := by
      rw [List.all_eq_true]
      intro x hx
      rw [List.mem_map] at hx
      obtain ⟨p, hp, rfl⟩ := hx
      exact (preds_mkDerivedStmt p).2.2.2.2
    unfold noWatchAsComputedFires
    simp [hct, hwc, hbs, hcnt, hf, ha, hall, List.length_map, hne0]
  · unfold noWatchAsComputedFires
    split
    · rfl
    · simp only [hwc]
      split
      · rfl
      · split
        · rfl
        · split
          · rfl
          · rcases hor with hf | ha
            · simp [hf]
            · simp [ha]
  · unfold noWatchAsComputedFires
    split
    · rfl
    · simp only [hwc]
      have hall : (getBodyStatements cb).all isExpressionAssignment = false := by
        rw [Bool.eq_false_iff]
        intro hT
        have := List.all_eq_true.mp hT stmt hmem
        rw [hshape] at this
        exact Bool.false_ne_true this
      split
      · rfl
      · simp [hall]

/-- Witness for C9 at a concrete input: a watch whose callback body is
the single clean statement `doubled.value = source` fires. -/
theorem noWatchAsComputed_derived_state_witness :
    (([("doubled", mkIdent "source")] : List (String × JsValue)) ≠ []) ∧
    (∀ p ∈ ([("doubled", mkIdent "source")] : List (String × JsValue)),
      cleanDerivedRhs p.2 = true) ∧
    noWatchAsComputedFires (mkWatch (mkIdent "dep")
      (mkArrowBlock ([("doubled", mkIdent "source")].map mkDerivedStmt))) = true :=
  ⟨by simp, by decide,
    noWatchAsComputed_derived_state.1 (mkIdent "dep") [("doubled", mkIdent "source")]
      (by simp) (by decide)⟩
